import Mathlib

/-!
Verification of the connection-dispatch and multiplexing layer of the
trivialt TFTP server (`server.go`).

The embedding models the dispatch layer as pure functions producing a
trace of layer-level actions (`Action`), interpreted over an explicit
dispatch state (`DState`): the connection-manager registry, the list of
error datagrams written to the shared socket, and the count of dedicated
sockets opened.  External collaborators that live outside the dispatch
layer (datagram validation, mode extraction, dedicated-socket dialing,
write setup) are supplied as an environment `Env`; theorems quantify over
all environments.
-/

set_option autoImplicit false

namespace Trivialt

/-- Remote endpoints; the Go code keys the registry by `addr.String()`,
so an endpoint is modelled directly by its string form. -/
abbrev Addr := String

/-- Raw datagram bytes (`[]byte`). -/
abbrev Bytes := List Nat

/-- Errors of the library.  Their wire form is outside the dispatch layer;
only identity matters here. -/
abbrev TErr := String

/-- TFTP error codes emitted directly by the dispatch layer
(`ErrCodeIllegalOperation`, `ErrCodeUnknownTransferID`). -/
inductive ErrCode where
  | illegalOperation
  | unknownTransferID
deriving DecidableEq

/-- The connection-manager map `reqMap map[string]chan []byte`.  Each
entry's channel is modelled by the list of datagrams buffered in it. -/
abbrev RegMap := List (Addr × List Bytes)

/-- Go map lookup `reqMap[key]` (first matching entry). -/
def regLookup (k : Addr) : RegMap → Option (List Bytes)
  | [] => none
  | (k', v) :: rest => if k' = k then some v else regLookup k rest

/-- Go map `delete(reqMap, key)`: every entry for `k` disappears. -/
def regErase (k : Addr) : RegMap → RegMap
  | [] => []
  | (k', v) :: rest => if k' = k then regErase k rest else (k', v) :: regErase k rest

/-- Go map assignment `reqMap[key] = v` (map semantics: the old binding,
if any, is replaced). -/
def regInsert (k : Addr) (v : List Bytes) (m : RegMap) : RegMap :=
  (k, v) :: regErase k m

/-- Channel send `reqChan <- d` on the channel registered under `k`:
the datagram is appended to that entry's buffer; other entries keep
their state. -/
def regPush (k : Addr) (d : Bytes) : RegMap → RegMap
  | [] => []
  | (k', ch) :: rest =>
      if k' = k then (k', ch ++ [d]) :: regPush k d rest
      else (k', ch) :: regPush k d rest

/-- `connManager.New`: allocate a fresh (empty) channel and store it
under the endpoint's key. -/
def cmNew (a : Addr) (m : RegMap) : RegMap := regInsert a [] m

/-- `connManager.Get`: non-blocking lookup. -/
def cmGet (a : Addr) (m : RegMap) : Option (List Bytes) := regLookup a m

/-- `connManager.Remove`: delete the entry. -/
def cmRemove (a : Addr) (m : RegMap) : RegMap := regErase a m

/-- Server configuration, the fields of `Server` that the dispatch layer
reads: network family, bind address, retransmission limit, single-port
flag, and whether a read/write handler is registered (`s.rh == nil`,
`s.wh == nil`). -/
structure SrvCfg where
  net : String
  addrStr : String
  retransmit : Int
  singlePort : Bool
  hasRH : Bool
  hasWH : Bool
deriving DecidableEq

/-- Outcomes of the external collaborators called by the dispatch layer
(all outside `server.go`): `dg.validate()`, `dg.mode()`, dialing a
dedicated per-transfer socket (`newConn(net, mode, addr)`), and
`c.readSetup()`.  Theorems quantify over all environments. -/
structure Env where
  validate : Bytes → Option TErr
  mode : Bytes → String
  dial : Addr → Option TErr
  readSetup : Option TErr

/-- The layer-level effects a dispatch produces, in program order. -/
inductive Action where
  /-- `s.conn.WriteTo(dg.bytes(), addr)` of an error datagram built by
  `writeError(code, msg)`; the send's own error is discarded. -/
  | sendErr (code : ErrCode) (msg : String) (dst : Addr)
  /-- `reqChan <- buf`: deliver a raw datagram to the channel registered
  for `dst`. -/
  | pushChan (dst : Addr) (data : Bytes)
  /-- `s.mgr.New(addr)`: register a fresh channel for `a`. -/
  | regNew (a : Addr)
  /-- `s.mgr.Remove(addr)`: drop the registry entry for `a`. -/
  | regRemove (a : Addr)
  /-- `newConn(s.net, mode, addr)` succeeded: a dedicated socket was opened. -/
  | openSocket
  /-- `s.rh.ServeTFTP(w)`: the read handler runs. -/
  | invokeRead
  /-- `s.wh.ReceiveTFTP(w)`: the write handler runs; `cerr` is the value
  of `c.err` on the connection it observes. -/
  | invokeWrite (cerr : Option TErr)
  /-- `c.Close()`: close the connection's underlying network channel. -/
  | closeConn
deriving DecidableEq

/-- The dispatch-layer state an action trace acts on: the registry (with
channel buffers), the error datagrams written to the shared socket, and
the number of dedicated sockets opened. -/
structure DState where
  reg : RegMap
  sent : List (ErrCode × String × Addr)
  opened : Nat
deriving DecidableEq

def applyAction (st : DState) : Action → DState
  | .sendErr c m a => { st with sent := st.sent ++ [(c, m, a)] }
  | .pushChan a d => { st with reg := regPush a d st.reg }
  | .regNew a => { st with reg := cmNew a st.reg }
  | .regRemove a => { st with reg := cmRemove a st.reg }
  | .openSocket => { st with opened := st.opened + 1 }
  | .invokeRead => st
  | .invokeWrite _ => st
  | .closeConn => st

def applyActions (acts : List Action) (st : DState) : DState :=
  acts.foldl applyAction st

/-- The connection object built by `Server.newConn`: single-port or
dedicated, remote endpoint, mode, retransmission limit, the received
request datagram `c.rx`, and the error slot `c.err`. -/
structure ConnS where
  isSingle : Bool
  caddr : Addr
  cmode : String
  cretransmit : Int
  rx : Bytes
  cerr : Option TErr
deriving DecidableEq

/-- `Server.newConn(addr, buf)`: validate the datagram, then either
register a channel-backed virtual connection (single-port) or dial a
dedicated socket; attach `rx` and the retransmit limit; return the
connection, the actions construction performed, and the actions its
closer performs when invoked (`c.Close()` plus, in single-port mode,
`s.mgr.Remove(addr)`).  On failure nothing was allocated, so no actions
are returned. -/
def newConnM (cfg : SrvCfg) (env : Env) (addr : Addr) (buf : Bytes) :
    Except TErr (ConnS × List Action × List Action) :=
  match env.validate buf with
  | some e => .error e
  | none =>
      if cfg.singlePort then
        let c : ConnS :=
          { isSingle := true, caddr := addr, cmode := env.mode buf
            cretransmit := cfg.retransmit, rx := buf, cerr := none }
        .ok (c, [.regNew addr], [.closeConn, .regRemove addr])
      else
        match env.dial addr with
        | some e => .error e
        | none =>
            let c : ConnS :=
              { isSingle := false, caddr := addr, cmode := env.mode buf
                cretransmit := cfg.retransmit, rx := buf, cerr := none }
            .ok (c, [.openSocket], [.closeConn])

/-- `Server.dispatchReadRequest`: with no read handler, send one
"illegal operation" error (send failure discarded) and stop; otherwise
build the connection (aborting silently on failure), invoke the handler,
and run the deferred closer on return. -/
def dispatchReadRequest (cfg : SrvCfg) (env : Env) (addr : Addr) (buf : Bytes) :
    List Action :=
  if cfg.hasRH = false then
    [.sendErr .illegalOperation "Server does not support read requests." addr]
  else
    match newConnM cfg env addr buf with
    | .error _ => []
    | .ok (_, setup, closer) => setup ++ [.invokeRead] ++ closer

/-- `Server.dispatchWriteRequest`: as the read side, but before invoking
the handler run `c.readSetup()`; its error, if any, is stored in `c.err`
rather than aborting the dispatch. -/
def dispatchWriteRequest (cfg : SrvCfg) (env : Env) (addr : Addr) (buf : Bytes) :
    List Action :=
  if cfg.hasWH = false then
    [.sendErr .illegalOperation "Server does not support write requests." addr]
  else
    match newConnM cfg env addr buf with
    | .error _ => []
    | .ok (c, setup, closer) =>
        let c' : ConnS :=
          match env.readSetup with
          | some e => { c with cerr := some e }
          | none => c
        setup ++ [.invokeWrite c'.cerr] ++ closer

/-- `Server.demuxToConn`: in single-port mode, a registered sender's
datagram goes to its channel; otherwise one "unknown transfer ID" error
datagram is sent back (send failure discarded). -/
def demuxToConn (cfg : SrvCfg) (reg : RegMap) (addr : Addr) (buf : Bytes) :
    List Action :=
  if cfg.singlePort && (regLookup addr reg).isSome then
    [.pushChan addr buf]
  else
    [.sendErr .unknownTransferID "Unexpected TID" addr]

/-- `conn.ReadFromUDP(buf)` into the reusable receive buffer: the
datagram's bytes overwrite a prefix of the buffer (truncated to the
buffer's length), the rest keeps its previous contents; returns the
updated buffer and `numBytes`. -/
def readIntoBuf (buf data : List Nat) : List Nat × Nat :=
  let n := min data.length buf.length
  (data.take n ++ buf.drop n, n)

/-- The byte the receive loop switches on: `buf[1]` of the reusable
buffer after the read (not of the copied datagram `b`). -/
def inspectedOpcode (buf data : List Nat) : Nat :=
  (readIntoBuf buf data).1.getD 1 0

/-- `make([]byte, 65536)`: the reusable receive buffer, zeroed. -/
def initialRecvBuf : List Nat := List.replicate 65536 0

/-- State of the receive loop: the reusable buffer plus the dispatch
state. -/
structure LoopState where
  rbuf : List Nat
  dst : DState

/-- One iteration of `Serve`'s receive loop after a successful read:
update the buffer, copy out `b := buf[:numBytes]`, switch on `buf[1]`
and run the spawned dispatch. -/
def serveStep (cfg : SrvCfg) (env : Env) (ls : LoopState) (addr : Addr) (data : Bytes) :
    LoopState :=
  let r := readIntoBuf ls.rbuf data
  let b := r.1.take r.2
  let acts :=
    match (r.1.getD 1 0 : Nat) with
    | 1 => dispatchReadRequest cfg env addr b
    | 2 => dispatchWriteRequest cfg env addr b
    | _ => demuxToConn cfg ls.dst.reg addr b
  ⟨r.1, applyActions acts ls.dst⟩

/-- Result of one `conn.ReadFromUDP` call in the receive loop. -/
inductive ReadResult where
  | recv (addr : Addr) (data : Bytes)
  | fail (e : TErr)

def ReadResult.isRecv : ReadResult → Bool
  | .recv _ _ => true
  | .fail _ => false

/-- Modelled from the spec: `wrapError` (defined outside `src/`) wraps an
error with a context message; the wrapped error is distinct data carrying
the original. -/
def wrapError (e : TErr) (ctx : String) : TErr := ctx ++ ": " ++ e

/-- `Serve`'s receive loop over a finite sequence of socket-read
results: each successful read is processed by `serveStep`; the first
failed read makes the loop return (`nil` when the server is closing,
the wrapped error otherwise).  The result is `some ret` when the loop
returned and `none` when the given reads were exhausted while still
looping. -/
def serveLoop (cfg : SrvCfg) (env : Env) (closing : Bool) (ls : LoopState) :
    List ReadResult → Option (Option TErr) × LoopState
  | [] => (none, ls)
  | .fail e :: _ =>
      (some (if closing then none else some (wrapError e "reading from conn")), ls)
  | .recv addr data :: rest =>
      serveLoop cfg env closing (serveStep cfg env ls addr data) rest

/-- Processing of the successful reads alone (used to describe where the
loop's state stands when it hits a read error). -/
def runRecvs (cfg : SrvCfg) (env : Env) (ls : LoopState) : List ReadResult → LoopState
  | [] => ls
  | .recv addr data :: rest => runRecvs cfg env (serveStep cfg env ls addr data) rest
  | .fail _ :: rest => runRecvs cfg env ls rest

/-- Modelled from the spec: the defaults `defaultUDPNet` and
`defaultRetransmit` are defined outside `src/`; the spec fixes them to
`udp` and 10. -/
def defaultUDPNet : String := "udp"

def defaultRetransmit : Int := 10

/-- Modelled from the spec: the configuration error values (defined
outside `src/`); only their identity matters. -/
def ErrInvalidNetwork : TErr := "invalid network"

def ErrInvalidRetransmit : TErr := "invalid retransmit"

/-- The three `ServerOpt` constructors exported by `server.go`. -/
inductive ServerOpt where
  | serverNet (n : String)
  | serverRetransmit (i : Int)
  | serverSinglePort (enable : Bool)
deriving DecidableEq

/-- Application of one option to the server under construction
(`ServerNet`, `ServerRetransmit`, `ServerSinglePort`). -/
def applyOpt (s : SrvCfg) : ServerOpt → Except TErr SrvCfg
  | .serverNet n =>
      if n ≠ "udp" ∧ n ≠ "udp4" ∧ n ≠ "udp6" then .error ErrInvalidNetwork
      else .ok { s with net := n }
  | .serverRetransmit i =>
      if i < 0 then .error ErrInvalidRetransmit
      else .ok { s with retransmit := i }
  | .serverSinglePort enable =>
      .ok (if enable then { s with singlePort := true } else s)

def applyOpts (s : SrvCfg) : List ServerOpt → Except TErr SrvCfg
  | [] => .ok s
  | o :: rest =>
      match applyOpt s o with
      | .error e => .error e
      | .ok s' => applyOpts s' rest

/-- The zero `Server` with defaults, before options run. -/
def initServer (addr : String) : SrvCfg :=
  { net := defaultUDPNet, addrStr := addr, retransmit := defaultRetransmit
    singlePort := false, hasRH := false, hasWH := false }

/-- `NewServer(addr, opts...)`: apply the options in order, failing on
the first option that errors. -/
def newServer (addr : String) (opts : List ServerOpt) : Except TErr SrvCfg :=
  applyOpts (initServer addr) opts

/-- Which options the option constructors reject. -/
def optInvalid : ServerOpt → Bool
  | .serverNet n => n ≠ "udp" ∧ n ≠ "udp4" ∧ n ≠ "udp6"
  | .serverRetransmit i => i < 0
  | .serverSinglePort _ => false

/-- Outcome of `Server.Close`: `s.close = true` always executes; the
subsequent `s.conn.Close()` is a promoted-method call through the
`*net.UDPConn` pointer, which panics with a nil-pointer dereference when
`s.conn` is nil (no `Serve`/`ListenAndServe` ever assigned it) and
returns normally otherwise. -/
structure CloseOutcome where
  closeFlagSet : Bool
  nilDerefPanic : Bool
deriving DecidableEq

/-- `Server.Close` over the socket field `s.conn` (`none` = never
assigned). -/
def closeServer (conn : Option Nat) : CloseOutcome :=
  { closeFlagSet := true, nilDerefPanic := conn.isNone }

/-- `Serve` records the socket into `s.conn` before looping; after any
run of `Serve`, the socket field is assigned. -/
def serveAssignConn (sock : Nat) (_old : Option Nat) : Option Nat :=
  some sock

/-- A history of registry operations (`New` / `Remove`) for one or more
endpoints. -/
inductive RegOp where
  | newOp (a : Addr)
  | removeOp (a : Addr)
deriving DecidableEq

def regStep (m : RegMap) : RegOp → RegMap
  | .newOp a => cmNew a m
  | .removeOp a => cmRemove a m

/-- Run a history of `New`/`Remove` calls against a starting registry. -/
def runRegOps (m : RegMap) (ops : List RegOp) : RegMap :=
  ops.foldl regStep m

/-- Concrete fixtures used by the witness theorems. -/
def cfgSP : SrvCfg :=
  { net := "udp", addrStr := ":69", retransmit := 10
    singlePort := true, hasRH := true, hasWH := true }

def cfgMP : SrvCfg :=
  { net := "udp", addrStr := ":69", retransmit := 10
    singlePort := false, hasRH := true, hasWH := true }

def cfgNoH : SrvCfg :=
  { net := "udp", addrStr := ":69", retransmit := 10
    singlePort := false, hasRH := false, hasWH := false }

def envOK : Env :=
  { validate := fun _ => none, mode := fun _ => "octet"
    dial := fun _ => none, readSetup := none }

def envValBad : Env :=
  { validate := fun _ => some "invalid datagram", mode := fun _ => "octet"
    dial := fun _ => none, readSetup := none }

def envSetupBad : Env :=
  { validate := fun _ => none, mode := fun _ => "octet"
    dial := fun _ => none, readSetup := some "option parse failure" }

def st0 : DState := { reg := [], sent := [], opened := 0 }

def st1 : DState := { reg := [("10.0.0.9:2000", [])], sent := [], opened := 0 }

theorem regLookup_regInsert_self (k : Addr) (v : List Bytes) (m : RegMap) :
    regLookup k (regInsert k v m) = some v := by
  simp [regInsert, regLookup]

theorem regLookup_regErase_self (k : Addr) (m : RegMap) :
    regLookup k (regErase k m) = none := by
  induction m with
  | nil => rfl
  | cons p rest ih =>
      obtain ⟨k', v⟩ := p
      by_cases h : k' = k
      · simp [regErase, h, ih]
      · simp [regErase, regLookup, h, ih]

theorem regLookup_regErase_ne (a k : Addr) (m : RegMap) (h : a ≠ k) :
    regLookup a (regErase k m) = regLookup a m := by
  have hk : k ≠ a := fun hc => h hc.symm
  induction m with
  | nil => rfl
  | cons p rest ih =>
      obtain ⟨k', v⟩ := p
      by_cases hkk : k' = k
      · subst hkk
        simp [regErase, regLookup, hk, ih]
      · simp only [regErase, if_neg hkk, regLookup, ih]

theorem regLookup_regInsert_ne (a k : Addr) (v : List Bytes) (m : RegMap) (h : a ≠ k) :
    regLookup a (regInsert k v m) = regLookup a m := by
  have hk : k ≠ a := fun hc => h hc.symm
  simp [regInsert, regLookup, hk, regLookup_regErase_ne a k m h]

theorem regLookup_regPush_self (k : Addr) (d : Bytes) (m : RegMap) (ch : List Bytes)
    (h : regLookup k m = some ch) :
    regLookup k (regPush k d m) = some (ch ++ [d]) := by
  induction m with
  | nil => simp [regLookup] at h
  | cons p rest ih =>
      obtain ⟨k', v⟩ := p
      by_cases hk : k' = k
      · simp [regLookup, hk] at h
        simp [regPush, hk, regLookup, h]
      · simp [regLookup, hk] at h
        simp [regPush, hk, regLookup, ih h]

theorem regLookup_regPush_ne (a k : Addr) (d : Bytes) (m : RegMap) (h : a ≠ k) :
    regLookup a (regPush k d m) = regLookup a m := by
  have hk : k ≠ a := fun hc => h hc.symm
  induction m with
  | nil => rfl
  | cons p rest ih =>
      obtain ⟨k', v⟩ := p
      by_cases hkk : k' = k
      · subst hkk
        simp [regPush, regLookup, hk, ih]
      · simp only [regPush, if_neg hkk, regLookup, ih]

/-- C4: if no read handler is registered, a read-request dispatch emits
exactly one "illegal operation" error datagram to the sender and
changes neither the registry, nor the socket count; symmetrically for
write requests with no write handler — for every configuration, so
regardless of single-port mode. -/
theorem dispatch_without_handler_sends_illegal_op
    (cfg : SrvCfg) (env : Env) (addr : Addr) (buf : Bytes) (st : DState) :
    (cfg.hasRH = false →
      dispatchReadRequest cfg env addr buf =
        [.sendErr .illegalOperation "Server does not support read requests." addr] ∧
      applyActions (dispatchReadRequest cfg env addr buf) st =
        { st with sent :=
            st.sent ++ [(.illegalOperation, "Server does not support read requests.", addr)] }) ∧
    (cfg.hasWH = false →
      dispatchWriteRequest cfg env addr buf =
        [.sendErr .illegalOperation "Server does not support write requests." addr] ∧
      applyActions (dispatchWriteRequest cfg env addr buf) st =
        { st with sent :=
            st.sent ++ [(.illegalOperation, "Server does not support write requests.", addr)] }) := by
  constructor
  · intro h
    simp [dispatchReadRequest, h, applyActions, applyAction]
  · intro h
    simp [dispatchWriteRequest, h, applyActions, applyAction]

theorem dispatch_without_handler_sends_illegal_op_witness :
    applyActions (dispatchReadRequest cfgNoH envOK "10.0.0.7:1234" [0, 1]) st0 =
      { st0 with sent :=
          st0.sent ++
            [(.illegalOperation, "Server does not support read requests.", "10.0.0.7:1234")] } :=
  ((dispatch_without_handler_sends_illegal_op cfgNoH envOK "10.0.0.7:1234" [0, 1] st0).1 rfl).2

/-- C5: when validation of the initial datagram fails, `newConn` returns
exactly the validation error and performs no allocation; the dispatcher
then aborts with an empty action trace, so the registry and socket state
are exactly as before the call. -/
theorem newConn_validation_failure_allocates_nothing
    (cfg : SrvCfg) (env : Env) (addr : Addr) (buf : Bytes) (e : TErr) (st : DState)
    (h : env.validate buf = some e) :
    newConnM cfg env addr buf = .error e ∧
    (cfg.hasRH = true →
      dispatchReadRequest cfg env addr buf = [] ∧
      applyActions (dispatchReadRequest cfg env addr buf) st = st) ∧
    (cfg.hasWH = true →
      dispatchWriteRequest cfg env addr buf = [] ∧
      applyActions (dispatchWriteRequest cfg env addr buf) st = st) := by
  refine ⟨by simp [newConnM, h], ?_, ?_⟩
  · intro hrh
    simp [dispatchReadRequest, hrh, newConnM, h, applyActions]
  · intro hwh
    simp [dispatchWriteRequest, hwh, newConnM, h, applyActions]

theorem newConn_validation_failure_allocates_nothing_witness :
    newConnM cfgSP envValBad "10.0.0.7:1234" [9] = .error "invalid datagram" ∧
    applyActions (dispatchReadRequest cfgSP envValBad "10.0.0.7:1234" [9]) st1 = st1 :=
  ⟨(newConn_validation_failure_allocates_nothing cfgSP envValBad "10.0.0.7:1234" [9]
      "invalid datagram" st1 rfl).1,
   ((newConn_validation_failure_allocates_nothing cfgSP envValBad "10.0.0.7:1234" [9]
      "invalid datagram" st1 rfl).2.1 rfl).2⟩

/-- C6: in `dispatchWriteRequest`, once the connection is constructed,
a failing `readSetup` does not abort the dispatch: the setup error is
stored in `c.err` and the write handler is still invoked, observing
that error. -/
theorem write_setup_error_attached_not_aborted
    (cfg : SrvCfg) (env : Env) (addr : Addr) (buf : Bytes)
    (c : ConnS) (setup closer : List Action) (e : TErr)
    (hwh : cfg.hasWH = true)
    (hok : newConnM cfg env addr buf = .ok (c, setup, closer))
    (hsetup : env.readSetup = some e) :
    dispatchWriteRequest cfg env addr buf = setup ++ [.invokeWrite (some e)] ++ closer ∧
    Action.invokeWrite (some e) ∈ dispatchWriteRequest cfg env addr buf := by
  have hd : dispatchWriteRequest cfg env addr buf =
      setup ++ [.invokeWrite (some e)] ++ closer := by
    simp [dispatchWriteRequest, hwh, hok, hsetup]
  refine ⟨hd, ?_⟩
  rw [hd]
  simp

theorem write_setup_error_attached_not_aborted_witness :
    dispatchWriteRequest cfgSP envSetupBad "10.0.0.7:1234" [0, 2] =
      [Action.regNew "10.0.0.7:1234"] ++
        [Action.invokeWrite (some "option parse failure")] ++
        [Action.closeConn, Action.regRemove "10.0.0.7:1234"] :=
  (write_setup_error_attached_not_aborted cfgSP envSetupBad "10.0.0.7:1234" [0, 2]
      { isSingle := true, caddr := "10.0.0.7:1234", cmode := "octet"
        cretransmit := 10, rx := [0, 2], cerr := none }
      [Action.regNew "10.0.0.7:1234"]
      [Action.closeConn, Action.regRemove "10.0.0.7:1234"]
      "option parse failure" rfl rfl rfl).1

/-- C2: for every dispatched read or write request whose connection
construction succeeds, the deferred closer runs when the handler
invocation returns — the dispatch trace is construction, handler
invocation, then the closer's actions — and the closer closes the
underlying network channel and, exactly when single-port mode is on,
removes the sender's registry entry. -/
theorem dispatch_closer_runs_on_return
    (cfg : SrvCfg) (env : Env) (addr : Addr) (buf : Bytes)
    (c : ConnS) (setup closer : List Action)
    (hok : newConnM cfg env addr buf = .ok (c, setup, closer)) :
    (cfg.hasRH = true →
      dispatchReadRequest cfg env addr buf = setup ++ [.invokeRead] ++ closer) ∧
    (cfg.hasWH = true →
      dispatchWriteRequest cfg env addr buf =
        setup ++ [.invokeWrite env.readSetup] ++ closer) ∧
    closer = .closeConn :: (if cfg.singlePort then [.regRemove addr] else []) ∧
    (∀ st : DState,
      regLookup addr (applyActions closer st).reg =
        if cfg.singlePort then none else regLookup addr st.reg) := by
  have hcerr : c.cerr = none ∧
      closer = .closeConn :: (if cfg.singlePort then [.regRemove addr] else []) := by
    revert hok
    unfold newConnM
    cases henv : env.validate buf with
    | some e => intro hok; cases hok
    | none =>
        by_cases hsp : cfg.singlePort = true
        · simp only [hsp, if_true]
          intro hok
          cases hok
          simp
        · have hsp' : cfg.singlePort = false := by
            cases hv : cfg.singlePort
            · rfl
            · exact absurd hv hsp
          simp only [hsp', if_false, Bool.false_eq_true]
          cases hdial : env.dial addr with
          | some e => intro hok; cases hok
          | none =>
              intro hok
              cases hok
              simp
  refine ⟨?_, ?_, hcerr.2, ?_⟩
  · intro hrh
    simp [dispatchReadRequest, hrh, hok]
  · intro hwh
    have : (match env.readSetup with
        | some e => { c with cerr := some e }
        | none => c).cerr = env.readSetup := by
      cases env.readSetup with
      | some e => simp
      | none => simp [hcerr.1]
    simp [dispatchWriteRequest, hwh, hok, this]
  · intro st
    rw [hcerr.2]
    by_cases hsp : cfg.singlePort = true
    · simp only [hsp, if_true]
      simp [applyActions, applyAction, cmRemove, regLookup_regErase_self]
    · have hsp' : cfg.singlePort = false := by
        cases hv : cfg.singlePort
        · rfl
        · exact absurd hv hsp
      simp [hsp', applyActions, applyAction]

theorem dispatch_closer_runs_on_return_witness :
    dispatchReadRequest cfgSP envOK "10.0.0.7:1234" [0, 1] =
      [Action.regNew "10.0.0.7:1234"] ++ [Action.invokeRead] ++
        [Action.closeConn, Action.regRemove "10.0.0.7:1234"] :=
  (dispatch_closer_runs_on_return cfgSP envOK "10.0.0.7:1234" [0, 1]
      { isSingle := true, caddr := "10.0.0.7:1234", cmode := "octet"
        cretransmit := 10, rx := [0, 1], cerr := none }
      [Action.regNew "10.0.0.7:1234"]
      [Action.closeConn, Action.regRemove "10.0.0.7:1234"] rfl).1 rfl

/-- C1: a datagram whose inspected opcode byte is neither 1 nor 2 is
handed by the receive loop to `demuxToConn`; `demuxToConn` delivers the
raw datagram to the registered channel of the sender's endpoint exactly
when single-port mode is on and the registry holds an entry for that
endpoint (all other entries and the sent list untouched), and in every
other case sends exactly one "unknown transfer ID" error datagram back
to the sender (its send error discarded by construction) while leaving
the registry — hence every transfer's state — unchanged. -/
theorem demuxToConn_routes_exactly
    (cfg : SrvCfg) (env : Env) (ls : LoopState) (addr : Addr) (data : Bytes)
    (st : DState) (buf : Bytes)
    (h1 : inspectedOpcode ls.rbuf data ≠ 1)
    (h2 : inspectedOpcode ls.rbuf data ≠ 2) :
    (serveStep cfg env ls addr data).dst =
      applyActions
        (demuxToConn cfg ls.dst.reg addr
          ((readIntoBuf ls.rbuf data).1.take (readIntoBuf ls.rbuf data).2))
        ls.dst ∧
    (∀ ch : List Bytes, cfg.singlePort = true → regLookup addr st.reg = some ch →
      demuxToConn cfg st.reg addr buf = [.pushChan addr buf] ∧
      applyActions (demuxToConn cfg st.reg addr buf) st =
        { st with reg := regPush addr buf st.reg } ∧
      regLookup addr (regPush addr buf st.reg) = some (ch ++ [buf]) ∧
      (∀ a : Addr, a ≠ addr → regLookup a (regPush addr buf st.reg) = regLookup a st.reg)) ∧
    (¬(cfg.singlePort = true ∧ (regLookup addr st.reg).isSome = true) →
      demuxToConn cfg st.reg addr buf =
        [.sendErr .unknownTransferID "Unexpected TID" addr] ∧
      applyActions (demuxToConn cfg st.reg addr buf) st =
        { st with sent := st.sent ++ [(.unknownTransferID, "Unexpected TID", addr)] }) := by
  refine ⟨?_, ?_, ?_⟩
  · unfold serveStep inspectedOpcode at *
    dsimp only
    split
    · exact absurd (by assumption) h1
    · exact absurd (by assumption) h2
    · rfl
  · intro ch hsp hch
    have hcond : (cfg.singlePort && (regLookup addr st.reg).isSome) = true := by
      rw [hsp, hch]
      rfl
    refine ⟨by simp [demuxToConn, hcond], ?_, ?_, ?_⟩
    · simp [demuxToConn, hcond, applyActions, applyAction]
    · exact regLookup_regPush_self addr buf st.reg ch hch
    · intro a ha
      exact regLookup_regPush_ne a addr buf st.reg ha
  · intro hno
    have hcond : (cfg.singlePort && (regLookup addr st.reg).isSome) = false := by
      rcases Bool.eq_false_or_eq_true (cfg.singlePort && (regLookup addr st.reg).isSome) with
        h | h
      · exact absurd (Bool.and_eq_true_iff.mp h) hno
      · exact h
    constructor
    · simp [demuxToConn, hcond]
    · simp [demuxToConn, hcond, applyActions, applyAction]

theorem demuxToConn_routes_exactly_witness :
    inspectedOpcode [7, 3, 7, 7] [0, 5, 0, 1] ≠ 1 ∧
    demuxToConn cfgSP st1.reg "10.0.0.9:2000" [0, 5, 0, 1] =
      [Action.pushChan "10.0.0.9:2000" [0, 5, 0, 1]] :=
  ⟨by decide,
   ((demuxToConn_routes_exactly cfgSP envOK ⟨[7, 3, 7, 7], st0⟩ "10.0.0.9:2000"
        [0, 5, 0, 1] st1 [0, 5, 0, 1] (by decide) (by decide)).2.1
      [] rfl rfl).1⟩

theorem applyOpt_error_iff (s : SrvCfg) (o : ServerOpt) :
    (∃ e, applyOpt s o = .error e) ↔ optInvalid o = true := by
  cases o with
  | serverNet n =>
      by_cases h : n ≠ "udp" ∧ n ≠ "udp4" ∧ n ≠ "udp6"
      · simp [applyOpt, optInvalid, h]
      · simp [applyOpt, optInvalid, h]
  | serverRetransmit i =>
      by_cases h : i < 0
      · simp [applyOpt, optInvalid, h]
      · simp [applyOpt, optInvalid, h]
  | serverSinglePort b => simp [applyOpt, optInvalid]

theorem applyOpts_error_iff (opts : List ServerOpt) :
    ∀ s : SrvCfg,
      (∃ e, applyOpts s opts = .error e) ↔ ∃ o ∈ opts, optInvalid o = true := by
  induction opts with
  | nil => intro s; simp [applyOpts]
  | cons o rest ih =>
      intro s
      cases happ : applyOpt s o with
      | error e =>
          have hbad : optInvalid o = true := (applyOpt_error_iff s o).mp ⟨e, happ⟩
          simp only [applyOpts, happ]
          constructor
          · intro _
            exact ⟨o, by simp, hbad⟩
          · intro _
            exact ⟨e, rfl⟩
      | ok s' =>
          have hgood : optInvalid o ≠ true := by
            intro hbad
            obtain ⟨e, he⟩ := (applyOpt_error_iff s o).mpr hbad
            rw [happ] at he
            cases he
          simp only [applyOpts, happ]
          rw [ih s']
          constructor
          · intro ⟨o', ho', hbad⟩
            exact ⟨o', by simp [ho'], hbad⟩
          · intro ⟨o', ho', hbad⟩
            rcases List.mem_cons.mp ho' with rfl | hmem
            · exact absurd hbad hgood
            · exact ⟨o', hmem, hbad⟩

/-- C7: `NewServer` fails — returning an error and no server — exactly
when some supplied option is invalid, i.e. a network family outside
`udp`/`udp4`/`udp6` or a negative retransmission limit; a zero or
positive retransmission limit is accepted and recorded. -/
theorem newServer_fails_iff_invalid_option (addr : String) (opts : List ServerOpt) :
    ((∃ e, newServer addr opts = .error e) ↔ ∃ o ∈ opts, optInvalid o = true) ∧
    (∀ i : Int, 0 ≤ i →
      newServer addr [.serverRetransmit i] = .ok { initServer addr with retransmit := i }) := by
  constructor
  · exact applyOpts_error_iff opts (initServer addr)
  · intro i hi
    have hnot : ¬ i < 0 := by omega
    simp [newServer, applyOpts, applyOpt, hnot]

theorem newServer_fails_iff_invalid_option_witness :
    newServer ":69" [ServerOpt.serverRetransmit 0] =
      .ok { initServer ":69" with retransmit := 0 } :=
  (newServer_fails_iff_invalid_option ":69" [ServerOpt.serverRetransmit 0]).2 0 (by decide)

/-- C8: when a socket read errors, the receive loop returns `nil` if the
server is in the closing state and the wrapped read error otherwise; the
loop terminates at that point — the reads that would come after the
failure are never processed, for any continuation `post`. -/
theorem serve_read_error_return
    (cfg : SrvCfg) (env : Env) (closing : Bool) (ls : LoopState)
    (pre : List ReadResult) (e : TErr) (post : List ReadResult)
    (hpre : ∀ r ∈ pre, r.isRecv = true) :
    serveLoop cfg env closing ls (pre ++ ReadResult.fail e :: post) =
      (some (if closing then none else some (wrapError e "reading from conn")),
       runRecvs cfg env ls pre) := by
  induction pre generalizing ls with
  | nil => rfl
  | cons r rest ih =>
      cases r with
      | fail e' =>
          have : ReadResult.isRecv (.fail e') = true := hpre _ (by simp)
          simp [ReadResult.isRecv] at this
      | recv a d =>
          have hrest : ∀ r ∈ rest, r.isRecv = true := fun r hr => hpre r (by simp [hr])
          simp only [List.cons_append, serveLoop, runRecvs]
          exact ih (serveStep cfg env ls a d) hrest

theorem serve_read_error_return_witness :
    serveLoop cfgMP envOK false ⟨[0, 0, 0, 0], st0⟩
        ([ReadResult.recv "10.0.0.7:1234" [0, 5]] ++
          ReadResult.fail "connection reset" :: [ReadResult.recv "x" [0, 5]]) =
      (some (if false then none
             else some (wrapError "connection reset" "reading from conn")),
       runRecvs cfgMP envOK ⟨[0, 0, 0, 0], st0⟩ [ReadResult.recv "10.0.0.7:1234" [0, 5]]) :=
  serve_read_error_return cfgMP envOK false ⟨[0, 0, 0, 0], st0⟩
    [ReadResult.recv "10.0.0.7:1234" [0, 5]] "connection reset"
    [ReadResult.recv "x" [0, 5]]
    (by intro r hr; rcases List.mem_singleton.mp hr with rfl; rfl)

/-- C9: `Close` sets the closing flag and then calls `s.conn.Close()`;
when no `Serve`/`ListenAndServe` ever assigned the socket, that call is
a promoted-method call through a nil `*net.UDPConn` and panics with a
nil-pointer dereference instead of returning an error; once the socket
has been assigned, `Close` returns normally. -/
theorem close_without_socket_panics (conn : Option Nat) :
    ((closeServer conn).nilDerefPanic = true ↔ conn = none) ∧
    (closeServer conn).closeFlagSet = true ∧
    (∀ sock old, (closeServer (serveAssignConn sock old)).nilDerefPanic = false) := by
  refine ⟨?_, rfl, fun sock old => rfl⟩
  cases conn with
  | none => simp [closeServer]
  | some s => simp [closeServer]

theorem close_without_socket_panics_witness :
    (closeServer none).nilDerefPanic = true :=
  (close_without_socket_panics none).1.mpr rfl

theorem inspectedOpcode_of_short (buf data : List Nat) (hlen : 2 ≤ buf.length)
    (hshort : data.length ≤ 1) :
    inspectedOpcode buf data = buf.getD 1 0 := by
  match buf, data with
  | [], _ => simp at hlen
  | [b], _ => simp at hlen
  | b0 :: b1 :: rest, [] => simp [inspectedOpcode, readIntoBuf]
  | b0 :: b1 :: rest, [d] =>
      have hmin : min ([d].length) ((b0 :: b1 :: rest).length) = 1 := by
        simp
      simp [inspectedOpcode, readIntoBuf, hmin, List.getD]
  | _, d1 :: d2 :: ds => simp at hshort

/-- C10: for a received datagram of length 0 or 1, the receive loop's
opcode inspection reads index 1 of the fixed 65536-byte reusable buffer
— in bounds, so it never faults — but the byte is residual content left
from earlier reads (zero before any datagram has been read), not a byte
of the current datagram, so two short datagrams with different contents
are classified identically. -/
theorem short_datagram_reads_residual_opcode
    (buf data : List Nat) (hlen : buf.length = 65536) (hshort : data.length ≤ 1) :
    (readIntoBuf buf data).1.length = 65536 ∧
    (1 : Nat) < 65536 ∧
    inspectedOpcode buf data = buf.getD 1 0 ∧
    (buf = initialRecvBuf → inspectedOpcode buf data = 0) ∧
    (∀ data' : List Nat, data'.length ≤ 1 →
      inspectedOpcode buf data' = inspectedOpcode buf data) := by
  have h2 : 2 ≤ buf.length := by omega
  refine ⟨?_, by omega, inspectedOpcode_of_short buf data h2 hshort, ?_, ?_⟩
  · simp only [readIntoBuf, List.length_append, List.length_take, List.length_drop]
    omega
  · intro hinit
    rw [inspectedOpcode_of_short buf data h2 hshort, hinit, initialRecvBuf,
      List.getD_eq_getElem?_getD]
    exact List.getElem?_getD_replicate_default_eq 0 65536 1
  · intro data' hshort'
    rw [inspectedOpcode_of_short buf data' h2 hshort',
      inspectedOpcode_of_short buf data h2 hshort]

theorem short_datagram_reads_residual_opcode_witness :
    inspectedOpcode initialRecvBuf [1] = 0 :=
  ((short_datagram_reads_residual_opcode initialRecvBuf [1]
      (by rw [initialRecvBuf, List.length_replicate]) (by simp)).2.2.2.1) rfl

theorem split_nil_iff {α : Type} (y : α) (P : List α → Prop) :
    (∃ l1 l2, ([] : List α) = l1 ++ y :: l2 ∧ P l2) ↔ False := by
  constructor
  · rintro ⟨l1, l2, heq, _⟩
    cases l1 <;> simp at heq
  · exact False.elim

theorem split_cons_iff {α : Type} (x y : α) (xs : List α) (P : List α → Prop) :
    (∃ l1 l2, x :: xs = l1 ++ y :: l2 ∧ P l2) ↔
      ((x = y ∧ P xs) ∨ ∃ l1 l2, xs = l1 ++ y :: l2 ∧ P l2) := by
  constructor
  · rintro ⟨l1, l2, heq, hP⟩
    cases l1 with
    | nil =>
        simp only [List.nil_append, List.cons.injEq] at heq
        exact Or.inl ⟨heq.1, heq.2 ▸ hP⟩
    | cons z l1' =>
        simp only [List.cons_append, List.cons.injEq] at heq
        exact Or.inr ⟨l1', l2, heq.2, hP⟩
  · rintro (⟨rfl, hP⟩ | ⟨l1, l2, heq, hP⟩)
    · exact ⟨[], xs, rfl, hP⟩
    · exact ⟨x :: l1, l2, by rw [heq, List.cons_append], hP⟩

theorem runRegOps_active (a : Addr) :
    ∀ (ops : List RegOp) (m : RegMap),
      (regLookup a (runRegOps m ops)).isSome = true ↔
        ((∃ l1 l2, ops = l1 ++ RegOp.newOp a :: l2 ∧ RegOp.removeOp a ∉ l2) ∨
         ((regLookup a m).isSome = true ∧ RegOp.removeOp a ∉ ops)) := by
  intro ops
  induction ops with
  | nil =>
      intro m
      rw [split_nil_iff]
      simp [runRegOps]
  | cons op rest ih =>
      intro m
      rw [show runRegOps m (op :: rest) = runRegOps (regStep m op) rest from rfl,
        ih (regStep m op)]
      simp only [split_cons_iff]
      generalize (∃ l1 l2, rest = l1 ++ RegOp.newOp a :: l2 ∧ RegOp.removeOp a ∉ l2) = A
      cases op with
      | newOp b =>
          by_cases hb : b = a
          · have hX : ((regLookup a (regStep m (RegOp.newOp b))).isSome = true) ↔ True := by
              rw [hb]
              simp [regStep, cmNew, regLookup_regInsert_self]
            have hctor : (RegOp.newOp b = RegOp.newOp a) ↔ True := by simp [hb]
            have hmem : (RegOp.removeOp a ∉ RegOp.newOp b :: rest) ↔
                (RegOp.removeOp a ∉ rest) := by
              simp [List.mem_cons]
            rw [hX, hctor, hmem]
            tauto
          · have haa : a ≠ b := fun hc => hb hc.symm
            have hX : ((regLookup a (regStep m (RegOp.newOp b))).isSome = true) ↔
                ((regLookup a m).isSome = true) := by
              rw [show regStep m (RegOp.newOp b) = cmNew b m from rfl, cmNew,
                regLookup_regInsert_ne a b [] m haa]
            have hctor : (RegOp.newOp b = RegOp.newOp a) ↔ False := by simp [hb]
            have hmem : (RegOp.removeOp a ∉ RegOp.newOp b :: rest) ↔
                (RegOp.removeOp a ∉ rest) := by
              simp [List.mem_cons]
            rw [hX, hctor, hmem]
            tauto
      | removeOp b =>
          by_cases hb : b = a
          · have hX : ((regLookup a (regStep m (RegOp.removeOp b))).isSome = true) ↔ False := by
              rw [hb, show regStep m (RegOp.removeOp a) = cmRemove a m from rfl, cmRemove,
                regLookup_regErase_self]
              simp
            have hctor : (RegOp.removeOp b = RegOp.newOp a) ↔ False := by simp
            have hmem : (RegOp.removeOp a ∉ RegOp.removeOp b :: rest) ↔
                (RegOp.removeOp a ∉ RegOp.removeOp b :: rest) := Iff.rfl
            have hmem' : ¬ (RegOp.removeOp a ∉ RegOp.removeOp b :: rest) := by
              intro hno
              exact hno (by rw [hb]; exact List.mem_cons_self _ _)
            rw [hX, hctor]
            constructor
            · intro h
              refine Or.inl (Or.inr ?_)
              tauto
            · intro h
              rcases h with (⟨hf, _⟩ | hA) | ⟨_, hm⟩
              · exact absurd hf id
              · exact Or.inl hA
              · exact absurd hm hmem'
          · have haa : a ≠ b := fun hc => hb hc.symm
            have hX : ((regLookup a (regStep m (RegOp.removeOp b))).isSome = true) ↔
                ((regLookup a m).isSome = true) := by
              rw [show regStep m (RegOp.removeOp b) = cmRemove b m from rfl, cmRemove,
                regLookup_regErase_ne a b m haa]
            have hctor : (RegOp.removeOp b = RegOp.newOp a) ↔ False := by simp
            have hmem : (RegOp.removeOp a ∉ RegOp.removeOp b :: rest) ↔
                (RegOp.removeOp a ∉ rest) := by
              simp only [List.mem_cons]
              constructor
              · intro hno hmem
                exact hno (Or.inr hmem)
              · intro hno hmem
                rcases hmem with heq | hmem
                · cases heq
                  exact hb rfl
                · exact hno hmem
            rw [hX, hctor, hmem]
            tauto

/-- C3: starting from the empty registry, `Get` reports "found" for an
endpoint exactly when the operation history contains a `New` for that
endpoint with no `Remove` for it afterwards; and after the closer of a
single-port transfer runs, `Get` for that transfer's endpoint reports
"not found". -/
theorem registry_get_iff_new_without_remove :
    (∀ (ops : List RegOp) (a : Addr),
      (cmGet a (runRegOps [] ops)).isSome = true ↔
        ∃ l1 l2, ops = l1 ++ RegOp.newOp a :: l2 ∧ RegOp.removeOp a ∉ l2) ∧
    (∀ (cfg : SrvCfg) (env : Env) (addr : Addr) (buf : Bytes)
        (c : ConnS) (setup closer : List Action) (st : DState),
      cfg.singlePort = true →
      newConnM cfg env addr buf = .ok (c, setup, closer) →
      cmGet addr (applyActions closer st).reg = none) := by
  constructor
  · intro ops a
    have h := runRegOps_active a ops []
    rw [show cmGet a (runRegOps [] ops) = regLookup a (runRegOps [] ops) from rfl, h]
    simp [regLookup]
  · intro cfg env addr buf c setup closer st hsp hok
    revert hok
    unfold newConnM
    cases henv : env.validate buf with
    | some e => intro hok; cases hok
    | none =>
        simp only [hsp, if_true]
        intro hok
        cases hok
        simp [applyActions, applyAction, cmRemove, cmGet, regLookup_regErase_self]

theorem registry_get_iff_new_without_remove_witness :
    (cmGet "10.0.0.7:1234" (runRegOps [] [RegOp.newOp "10.0.0.7:1234"])).isSome = true :=
  (registry_get_iff_new_without_remove.1 [RegOp.newOp "10.0.0.7:1234"] "10.0.0.7:1234").mpr
    ⟨[], [], rfl, by simp⟩

end Trivialt
